import Mathlib

/-!
Shallow embedding of the scraping pipeline of `src/index.ts`
(class `LinkedInProfileScraper`) together with the JavaScript string/number
primitives its hot paths rely on, and proofs settling the frozen claims.

Conventions of the embedding:
* JavaScript strings are Lean `String`s; `null`/`undefined`-able values are
  `Option`s; code that can throw returns `Except JsError`.
* JavaScript numbers are IEEE-754 doubles.  Every number the embedded code
  manipulates is a nonnegative integer, so a double is modelled as the `Nat`
  it denotes, and the lossy `ToNumber` conversion of a digit string is
  modelled by rounding the exact integer to 53 significant bits
  (`float64OfNat`), which is exactly what the double conversion does in the
  identifier range (far below 2^1024, so no overflow to infinity).
* `BigInt` values are exact, hence plain `Nat`.
-/

namespace LinkedInProfileScraper

/-! ### JavaScript string primitives -/

/-- Whether `needle` occurs at the head of `hay` (helper for `jsIncludes`/`jsSplit`). -/
def listStartsWith : List Char → List Char → Bool
  | [], _ => true
  | _ :: _, [] => false
  | a :: as, b :: bs => a == b && listStartsWith as bs

/-- JavaScript `hay.includes(needle)` for char lists. -/
def listIncludes : List Char → List Char → Bool
  | hay, needle =>
    listStartsWith needle hay ||
      match hay with
      | [] => false
      | _ :: t => listIncludes t needle

/-- JavaScript `String.prototype.includes` (substring containment). -/
def jsIncludes (s pat : String) : Bool :=
  listIncludes s.data pat.data

/-- JavaScript `s.endsWith(pat)` for char lists. -/
def listEndsWith (hay needle : List Char) : Bool :=
  listStartsWith needle.reverse hay.reverse

/-- Splitting worker: structural recursion on fuel, valid while
`l.length ≤ fuel`; `sep` is nonempty for every separator the source uses. -/
def splitOnAux (sep : List Char) : Nat → List Char → List Char → List (List Char)
  | 0, l, acc => [acc.reverse ++ l]
  | f + 1, l, acc =>
    match l with
    | [] => [acc.reverse]
    | c :: rest =>
      if listStartsWith sep l then
        acc.reverse :: splitOnAux sep f (l.drop sep.length) []
      else
        splitOnAux sep f rest (c :: acc)

/-- JavaScript `String.prototype.split` with a (nonempty) string separator:
left-to-right scan, non-overlapping matches, `[s]` when no match. -/
def jsSplit (s sep : String) : List String :=
  (splitOnAux sep.data s.data.length s.data []).map fun cs => String.mk cs

/-- JavaScript `Array.prototype.join(", ")` and friends. -/
def joinSep (sep : String) : List String → String
  | [] => ""
  | [a] => a
  | a :: rest => a ++ sep ++ joinSep sep rest

/-- The even-indexed entries of a list:
`array.filter((value, index) => index % 2 == 0)`. -/
def evenEntries (l : List String) : List String :=
  (l.enum.filter fun p => p.1 % 2 == 0).map fun p => p.2

/-! ### JavaScript numbers -/

/-- Bit length of `n` (`0` for `0`); fuel-based so that it reduces in the
kernel.  `bitLenAux f n` is valid whenever `n ≤ f`. -/
def bitLenAux : Nat → Nat → Nat
  | 0, _ => 0
  | _ + 1, 0 => 0
  | f + 1, n + 1 => bitLenAux f ((n + 1) / 2) + 1

/-- Bit length of a natural number (equals `Nat.size`, see `bitLen_eq_size`). -/
def bitLen (n : Nat) : Nat :=
  bitLenAux n n

/-- The exact value of the IEEE-754 double closest to the integer `n`
(round half to even), for `n` in the identifier range (no overflow).
Integers up to 2^53 are exact; above, the integer is rounded to 53
significant bits.  This is what JavaScript's `ToNumber` does to the
numeric value of a digit string. -/
def float64OfNat (n : Nat) : Nat :=
  if n ≤ 2 ^ 53 then n
  else
    let e := bitLen n - 53
    let q := n / 2 ^ e
    let r := n % 2 ^ e
    if 2 * r > 2 ^ e || (2 * r == 2 ^ e && q % 2 == 1) then (q + 1) * 2 ^ e
    else q * 2 ^ e

/-- Decimal value of a digit string. -/
def natOfDigits (cs : List Char) : Nat :=
  cs.foldl (fun a c => 10 * a + (c.toNat - '0'.toNat)) 0

/-- JavaScript `ToNumber` on the strings that reach the feed-item filters
(identifier fragments): `""` converts to `0`, a digit string to the double
nearest its integer value, anything else to `NaN` (`none`).  (Signs,
decimal points and exponents never occur in this identifier grammar.) -/
def jsToNumber (s : String) : Option Nat :=
  if s.data.isEmpty then some 0
  else if s.data.all (·.isDigit) then some (float64OfNat (natOfDigits s.data))
  else none

/-! ### TimestampCodec: `extractUnixTimestamp` (src/index.ts lines 515-522) -/

/-- Binary digits of `n`, most significant first (`[]` for `0`).  Fuel-based
(`n ≤ f` required) so that it reduces in the kernel. -/
def natToBinAux : Nat → Nat → List Bool
  | 0, _ => []
  | _ + 1, 0 => []
  | f + 1, n + 1 => natToBinAux f ((n + 1) / 2) ++ [(n + 1) % 2 == 1]

/-- Binary digits of `n`, most significant first (`[]` for `0`). -/
def natToBin (n : Nat) : List Bool :=
  natToBinAux n n

/-- Render bits as characters. -/
def charsOfBits (l : List Bool) : List Char :=
  l.map fun b => if b then '1' else '0'

/-- Models `BigInt(n).toString(2)`: the base-2 rendering, `"0"` for zero and no
leading zeros otherwise. -/
def binString (n : Nat) : List Char :=
  charsOfBits (if n = 0 then [false] else natToBin n)

/-- Models `parseInt(s, 2)` on a string of binary digits.  The source applies it to
at most 41 binary digits, whose value is below 2^41 < 2^53, so the double
it returns is exact and a `Nat` result is faithful. -/
def parseBinChars (cs : List Char) : Nat :=
  cs.foldl (fun a c => 2 * a + (if c == '1' then 1 else 0)) 0

/-- Method `extractUnixTimestamp(postId)` (src/index.ts lines 515-522): render the
identifier in base 2 with `BigInt`, slice the first 41 characters,
reparse them as base-2. -/
def extractUnixTimestamp (postId : Nat) : Nat :=
  parseBinChars ((binString postId).take 41)

/-! ### Arithmetic facts about the codec -/

/-- Value of a most-significant-first bit string. -/
def binVal (l : List Bool) : Nat :=
  l.foldl (fun a b => 2 * a + (if b then 1 else 0)) 0

theorem binVal_foldl (x : Nat) (l : List Bool) :
    l.foldl (fun a b => 2 * a + (if b then 1 else 0)) x =
      x * 2 ^ l.length + binVal l := by
  induction l generalizing x with
  | nil => simp [binVal]
  | cons b t ih =>
    simp only [List.foldl_cons, List.length_cons, binVal]
    rw [ih, ih (2 * 0 + _)]
    ring

theorem binVal_append (a b : List Bool) :
    binVal (a ++ b) = binVal a * 2 ^ b.length + binVal b := by
  unfold binVal
  rw [List.foldl_append, binVal_foldl]
  rfl

theorem binVal_lt (l : List Bool) : binVal l < 2 ^ l.length := by
  induction l with
  | nil => simp [binVal]
  | cons b t ih =>
    have h := binVal_foldl (2 * 0 + (if b then 1 else 0)) t
    unfold binVal at h ⊢
    simp only [List.foldl_cons, List.length_cons]
    rw [h, pow_succ]
    have hb : (if b then 1 else 0) ≤ 1 := by split <;> omega
    have hbt : binVal t < 2 ^ t.length := ih
    unfold binVal at hbt
    nlinarith [pow_pos (show 0 < 2 by norm_num) t.length]

theorem binVal_take (l : List Bool) (k : Nat) :
    binVal (l.take k) = binVal l / 2 ^ (l.length - k) := by
  conv_rhs => rw [← List.take_append_drop k l]
  rw [binVal_append, List.length_append]
  have hlen : (l.take k).length + (l.drop k).length - k = (l.drop k).length := by
    have h1 := List.length_take_le k l
    have h2 : (l.take k).length + (l.drop k).length = l.length := by
      rw [← List.length_append, List.take_append_drop]
    have h3 : (l.drop k).length = l.length - k := List.length_drop k l
    omega
  rw [hlen, Nat.mul_comm, Nat.mul_add_div (Nat.pos_pow_of_pos _ (by norm_num)),
    Nat.div_eq_of_lt (binVal_lt _), Nat.add_zero]

theorem size_eq_size_div_two_succ {n : Nat} (h : n ≠ 0) :
    Nat.size n = Nat.size (n / 2) + 1 := by
  rcases Nat.eq_or_lt_of_le (Nat.one_le_iff_ne_zero.mpr h) with h1 | h2
  · rw [← h1]
    norm_num [Nat.size_one, Nat.size_zero]
  · -- n ≥ 2
    apply le_antisymm
    · rw [Nat.size_le, pow_succ]
      have hd := Nat.lt_size_self (n / 2)
      have hmod := Nat.div_add_mod n 2
      have : n % 2 < 2 := Nat.mod_lt _ (by norm_num)
      omega
    · have hpos : 0 < n / 2 := Nat.div_pos (by omega) (by norm_num)
      have hs : 0 < Nat.size (n / 2) := Nat.size_pos.mpr hpos
      have hlow : 2 ^ (Nat.size (n / 2) - 1) ≤ n / 2 := by
        rw [← Nat.lt_size]
        omega
      have : 2 ^ Nat.size (n / 2) ≤ n := by
        calc 2 ^ Nat.size (n / 2) = 2 * 2 ^ (Nat.size (n / 2) - 1) := by
              rw [← pow_succ']
              congr 1
              omega
          _ ≤ 2 * (n / 2) := by omega
          _ ≤ n := Nat.mul_div_le n 2
      have := Nat.lt_size.mpr this
      omega

theorem natToBinAux_spec : ∀ f n, n ≤ f →
    binVal (natToBinAux f n) = n ∧ (natToBinAux f n).length = Nat.size n := by
  intro f
  induction f with
  | zero =>
    intro n hn
    have : n = 0 := by omega
    subst this
    simp [natToBinAux, binVal, Nat.size_zero]
  | succ f ih =>
    intro n hn
    match n with
    | 0 => simp [natToBinAux, binVal, Nat.size_zero]
    | m + 1 =>
      have hdiv : (m + 1) / 2 ≤ f := by
        have : (m + 1) / 2 < m + 1 := Nat.div_lt_self (by omega) (by norm_num)
        omega
      obtain ⟨ihv, ihl⟩ := ih ((m + 1) / 2) hdiv
      constructor
      · rw [natToBinAux, binVal_append, ihv]
        have hmod := Nat.div_add_mod (m + 1) 2
        have hlt : (m + 1) % 2 < 2 := Nat.mod_lt _ (by norm_num)
        rcases Nat.mod_two_eq_zero_or_one (m + 1) with h | h <;>
          simp [h, binVal] <;> omega
      · rw [natToBinAux, List.length_append, ihl]
        simp only [List.length_cons, List.length_nil]
        rw [← size_eq_size_div_two_succ (by omega)]

theorem binVal_natToBin (n : Nat) : binVal (natToBin n) = n :=
  (natToBinAux_spec n n le_rfl).1

theorem length_natToBin (n : Nat) : (natToBin n).length = Nat.size n :=
  (natToBinAux_spec n n le_rfl).2

theorem bitLenAux_eq_size : ∀ f n, n ≤ f → bitLenAux f n = Nat.size n := by
  intro f
  induction f with
  | zero =>
    intro n hn
    have : n = 0 := by omega
    subst this
    simp [bitLenAux, Nat.size_zero]
  | succ f ih =>
    intro n hn
    match n with
    | 0 => simp [bitLenAux, Nat.size_zero]
    | m + 1 =>
      have hdiv : (m + 1) / 2 ≤ f := by
        have : (m + 1) / 2 < m + 1 := Nat.div_lt_self (by omega) (by norm_num)
        omega
      rw [bitLenAux, ih _ hdiv, ← size_eq_size_div_two_succ (by omega)]

theorem bitLen_eq_size (n : Nat) : bitLen n = Nat.size n :=
  bitLenAux_eq_size n n le_rfl

theorem charsOfBits_take (l : List Bool) (k : Nat) :
    (charsOfBits l).take k = charsOfBits (l.take k) := by
  unfold charsOfBits
  exact (List.map_take ..).symm

theorem parseBinChars_charsOfBits (l : List Bool) :
    parseBinChars (charsOfBits l) = binVal l := by
  unfold parseBinChars charsOfBits binVal
  rw [List.foldl_map]
  congr 1
  funext a b
  cases b <;> simp

/-- The slicing decoder agrees with an arithmetic right shift discarding all
bits beyond the leading 41: the decoded value is the identifier divided by
`2 ^ (bitlength - 41)`. -/
theorem extractUnixTimestamp_eq_shift (x : Nat) :
    extractUnixTimestamp x = x / 2 ^ (Nat.size x - 41) := by
  unfold extractUnixTimestamp binString
  by_cases hx : x = 0
  · subst hx
    simp [charsOfBits, parseBinChars, Nat.size_zero]
  · simp only [hx, if_false]
    rw [charsOfBits_take, parseBinChars_charsOfBits, binVal_take, binVal_natToBin,
      length_natToBin]

/-- The decoded value always fits in 41 bits (hence the `parseInt` double in
the source is exact). -/
theorem extractUnixTimestamp_lt (x : Nat) : extractUnixTimestamp x < 2 ^ 41 := by
  unfold extractUnixTimestamp binString
  by_cases hx : x = 0
  · subst hx
    simp [charsOfBits, parseBinChars]
  · simp only [hx, if_false]
    rw [charsOfBits_take, parseBinChars_charsOfBits]
    have h := binVal_lt ((natToBin x).take 41)
    have hlen : ((natToBin x).take 41).length ≤ 41 := by
      rw [List.length_take]
      omega
    calc binVal ((natToBin x).take 41) < 2 ^ ((natToBin x).take 41).length := h
      _ ≤ 2 ^ 41 := Nat.pow_le_pow_right (by norm_num) hlen

/-! ### Errors and JavaScript identifier values -/

/-- Failures the embedded code can raise or propagate.  The first three are
the `Error`s thrown by `run`'s validation (src lines 990-1000); `typeError`
is a property access on `undefined` inside `page.evaluate`; `bigIntSyntax`
is `BigInt()` applied to a non-numeric string; `external` stands for any
failure surfaced by the browser layer (navigation timeout, detached node,
...), which the source only rethrows. -/
inductive JsError where
  | noBrowser
  | noProfileUrl
  | invalidUrl
  | typeError
  | bigIntSyntax
  | external (code : Nat)
deriving DecidableEq, Repr

/-- An identifier value as the comment extractor produces it: the number `0`
(from the `|| 0` fallback) or a string fragment of the `data-id` attribute. -/
inductive JsId where
  | num (n : Nat)
  | str (s : String)
deriving DecidableEq, Repr

/-- String interpolation of an id into a template literal. -/
def jsIdToString : JsId → String
  | .num n => Nat.repr n
  | .str s => s

/-- JavaScript `ToNumber` of an id (`none` = `NaN`). -/
def jsIdToNumber : JsId → Option Nat
  | .num n => some n
  | .str s => jsToNumber s

/-! ### Feed items and the incremental-sync filters -/

/-- One element of `rawUserPostData` (built inside `page.evaluate` in
`getPosts`, src lines 585-640).  `postId` is the fragment cut out of the
`data-urn` attribute, or `null`; the other fields are carried data the
incremental filter never inspects.  `postDateMillis` holds the decoded
timestamp whose `toUTCString` rendering the source stores (the rendering is
omitted: no claim inspects it and it is a function of the timestamp). -/
structure PostData where
  postId : Option String
  postText : Option String
  postDateMillis : Option Nat
  postLikes : Nat
  postComments : Option Nat
  postShares : Option Nat
  postUrl : String
deriving DecidableEq, Repr

/-- The predicate of `rawUserPostData.filter((post) => post.postId > lastPostID)`
(src lines 642-644): a JavaScript `>` between a string-or-null id and the
numeric watermark, i.e. a double comparison after `ToNumber` (`null` → `0`,
digit string → the nearest double, non-numeric → `NaN`, which compares
false).  `lastPostID` is the watermark's exact numeric value (callers pass
integers exactly representable as doubles). -/
def postPasses (postId : Option String) (lastPostID : Nat) : Bool :=
  match postId with
  | none => decide (0 > lastPostID)
  | some s =>
    match jsToNumber s with
    | none => false
    | some x => decide (x > lastPostID)

/-- The incremental-sync filter of `getPosts` (src lines 642-644). -/
def postsFilter (l : List PostData) (lastPostID : Nat) : List PostData :=
  l.filter fun post => postPasses post.postId lastPostID

/-- One record pushed by the comment extractor (src lines 710-716).
`commentDateMillis` holds the decoded timestamp (see `PostData` for why the
`toUTCString` rendering is not carried). -/
structure CommentData where
  commentId : JsId
  commentPostId : JsId
  commentText : String
  commentDateMillis : Nat
  commentUrl : String
deriving DecidableEq, Repr

/-- One DOM comment element as the extractor reads it: the author's name (the
resolved `innerText` of the author span), the comment text, and the
`data-id` attribute (absent → `null`). -/
structure RawComment where
  author : String
  text : String
  dataId : Option String
deriving DecidableEq, Repr

/-- JavaScript `x || 0` on a string. -/
def strOrZero (s : String) : JsId :=
  if s = "" then .num 0 else .str s

/-- Models `comments[i].getAttribute('data-id')?.split(":")[4].split(",")[1].split(')')[0] || 0`
(src line 702).  A missing attribute short-circuits the optional chain to
`undefined`, then `|| 0`; a malformed attribute makes `[4]` or `[1]`
`undefined` and the following `.split` throw. -/
def commentIdOf (attr : Option String) : Except JsError JsId :=
  match attr with
  | none => .ok (.num 0)
  | some s =>
    match (jsSplit s ":").get? 4 with
    | none => .error .typeError
    | some p =>
      match (jsSplit p ",").get? 1 with
      | none => .error .typeError
      | some q => .ok (strOrZero ((jsSplit q ")").headD ""))

/-- Models `comments[i].getAttribute('data-id')?.split(":")[4].split(",")[0] || 0`
(src line 703). -/
def commentPostIdOf (attr : Option String) : Except JsError JsId :=
  match attr with
  | none => .ok (.num 0)
  | some s =>
    match (jsSplit s ":").get? 4 with
    | none => .error .typeError
    | some p => .ok (strOrZero ((jsSplit p ",").headD ""))

/-- Models `BigInt(x)`: exact on numbers; on a string, parses the decimal digits
(empty string is `0n`) and throws a `SyntaxError` otherwise. -/
def jsBigInt : JsId → Except JsError Nat
  | .num n => .ok n
  | .str s =>
    if s.data.all (·.isDigit) then .ok (natOfDigits s.data) else .error .bigIntSyntax

/-- The body of the innermost `if` of the comment loop (src lines 702-717):
extract the two id fragments, decode the timestamp with `BigInt` +
`extractUnixTimestamp`, and assemble the record and its permalink. -/
def buildComment (c : RawComment) : Except JsError CommentData := do
  let cid ← commentIdOf c.dataId
  let pid ← commentPostIdOf c.dataId
  let big ← jsBigInt cid
  pure
    { commentId := cid
      commentPostId := pid
      commentText := c.text
      commentDateMillis := extractUnixTimestamp big
      commentUrl :=
        "https://www.linkedin.com/feed/update/urn:li:activity:" ++ jsIdToString pid ++
          "/?commentUrn=urn:li:comment:(activity:" ++ jsIdToString pid ++ "," ++
          jsIdToString cid ++ ")&dashCommentUrn=urn:li:fsd_comment:(" ++
          jsIdToString cid ++ ",urn:li:activity:" ++ jsIdToString pid ++ ")" }

/-- The comparison `author == profile_owner` where `profile_owner` may be `undefined`
(a string never equals `undefined`). -/
def authorIs (author : String) : Option String → Bool
  | none => false
  | some o => author == o

/-- The comment-collection loop of `page.evaluate` in `getComments`
(src lines 686-722): walk the DOM comments in document order, keep those
authored by the profile owner whose text is not already collected, building
each kept record with `buildComment`. -/
def commentsGo (owner : Option String) :
    List RawComment → List CommentData → Except JsError (List CommentData)
  | [], acc => .ok acc
  | c :: rest, acc =>
    if authorIs c.author owner then
      if (acc.map fun x => x.commentText).contains c.text then
        commentsGo owner rest acc
      else
        match buildComment c with
        | .error e => .error e
        | .ok d => commentsGo owner rest (acc ++ [d])
    else
      commentsGo owner rest acc

/-- The list `profile_owner_comments` as returned by the evaluate in `getComments`:
the owner name is `document.title.split(" | ")[1]` (src line 691). -/
def ownerComments (title : String) (items : List RawComment) :
    Except JsError (List CommentData) :=
  commentsGo ((jsSplit title " | ").get? 1) items []

/-- The predicate of `rawComment.filter((comment) => comment.commentId > lastCommentID)`
(src lines 724-726); same JavaScript `>` semantics as `postPasses`. -/
def commentPasses (commentId : JsId) (lastCommentID : Nat) : Bool :=
  match jsIdToNumber commentId with
  | none => false
  | some x => decide (x > lastCommentID)

/-- The incremental-sync filter of `getComments` (src lines 724-726). -/
def commentsFilter (l : List CommentData) (lastCommentID : Nat) : List CommentData :=
  l.filter fun comment => commentPasses comment.commentId lastCommentID

/-- JavaScript `{...array}`: spreading an array into an object literal yields
an object keyed by the decimal indices, not an array (src lines 646-648,
728-730, 796-798). -/
def jsSpreadToObj {α : Type} (l : List α) : List (String × α) :=
  l.enum.map fun p => (Nat.repr p.1, p.2)

/-! ### The `close` method (src lines 432-482) -/

/-- The observable browser resources a `close` call is supposed to release. -/
structure BrowserState where
  pageOpen : Bool
  browserOpen : Bool
  processAlive : Bool
deriving DecidableEq, Repr

/-- Method `close(page?)` as implemented: its body is
`return new Promise(async (resolve, reject) => { resolve() })` — the promise
resolves immediately and the method returns, so no resource is touched.
Everything below that `return` (page close, browser close, `treeKill`) is
unreachable dead code. -/
def close (pageGiven : Bool) (s : BrowserState) : BrowserState :=
  s

/-- The unreachable cleanup body below the early return (src lines 439-481),
i.e. what `close` was evidently meant to do: close the page when one was
passed, then close the browser and kill its process tree. -/
def closeCleanupBody (pageGiven : Bool) (s : BrowserState) : BrowserState :=
  let s1 := if pageGiven then { s with pageOpen := false } else s
  if s.browserOpen then { s1 with browserOpen := false, processAlive := false } else s1

/-! ### Section extractors: experiences, volunteerings, honors, skills -/

/-- Normalized experience/volunteering record as the evaluate loops build it
(src lines 765-791 and 881-907).  The TS interfaces declare every field
`string | null`, but at runtime `title`/`startDate`/`description` are always
strings while `company`/`endDate` can be `undefined`. -/
structure Experience where
  title : String
  company : Option String
  startDate : String
  endDate : Option String
  description : String
deriving DecidableEq, Repr

/-- Volunteering record (same runtime shape as `Experience`,
src lines 881-907). -/
structure Volunteering where
  title : String
  company : Option String
  startDate : String
  endDate : Option String
  description : String
deriving DecidableEq, Repr

/-- Honor record (src lines 943-966). -/
structure Honor where
  title : String
  company : String
  date : Option String
  description : String
deriving DecidableEq, Repr

/-- Skill record (src lines 832-844). -/
structure Skill where
  skillName : String
deriving DecidableEq, Repr

/-- The guard shared by the experience/volunteering/honors loops: the
element's primary label — entry 0 of the even-indexed lines of its
`innerText` — contains the empty-state marker `'Nothing to see'`
(src lines 773, 889, 951). -/
def isEmptyStateItem (txt : String) : Bool :=
  jsIncludes ((evenEntries (jsSplit txt "\n")).headD "") "Nothing to see"

/-- Per-element body of the experience loop (src lines 769-789): split the
`innerText` into lines, keep the even-indexed ones, skip the element when it
is the empty-state marker, otherwise build the record; accessing the dates
entry of an element with fewer than three kept lines throws
(`undefined.split`). -/
def expItem (txt : String) : Except JsError (Option Experience) :=
  let exps := evenEntries (jsSplit txt "\n")
  if jsIncludes (exps.headD "") "Nothing to see" then .ok none
  else
    match exps.get? 2 with
    | none => .error .typeError
    | some dates =>
      .ok (some
        { title := exps.headD ""
          company := exps.get? 1
          startDate := ((jsSplit ((jsSplit dates " · ").headD "") " - ").headD "")
          endDate := ((jsSplit ((jsSplit dates " · ").headD "") " - ").get? 1)
          description := joinSep ", " (exps.drop 3) })

/-- Per-element body of the volunteering loop (src lines 885-905); same
shape as `expItem`. -/
def volItem (txt : String) : Except JsError (Option Volunteering) :=
  let vols := evenEntries (jsSplit txt "\n")
  if jsIncludes (vols.headD "") "Nothing to see" then .ok none
  else
    match vols.get? 2 with
    | none => .error .typeError
    | some dates =>
      .ok (some
        { title := vols.headD ""
          company := vols.get? 1
          startDate := ((jsSplit ((jsSplit dates " · ").headD "") " - ").headD "")
          endDate := ((jsSplit ((jsSplit dates " · ").headD "") " - ").get? 1)
          description := joinSep ", " (vols.drop 3) })

/-- Per-element body of the honors loop (src lines 947-964): entry 1 of the
kept lines carries `company · date`; accessing it on a shorter element
throws. -/
def honItem (txt : String) : Except JsError (Option Honor) :=
  let hons := evenEntries (jsSplit txt "\n")
  if jsIncludes (hons.headD "") "Nothing to see" then .ok none
  else
    match hons.get? 1 with
    | none => .error .typeError
    | some second =>
      .ok (some
        { title := hons.headD ""
          company := (jsSplit second " · ").headD ""
          date := (jsSplit second " · ").get? 1
          description := joinSep ", " (hons.drop 2) })

/-- The common for-loop shape of the three list extractors: process the
elements in document order, skip the ones the body maps to `none`, abort on
the first thrown error. -/
def itemLoop {α : Type} (f : String → Except JsError (Option α)) :
    List String → Except JsError (List α)
  | [] => .ok []
  | t :: rest =>
    match f t with
    | .error e => .error e
    | .ok none => itemLoop f rest
    | .ok (some r) =>
      match itemLoop f rest with
      | .error e => .error e
      | .ok l => .ok (r :: l)

/-- The skills loop (src lines 832-844): keep an element when the first line
of its `innerText` is nonempty. -/
def skillsLoop : List String → List Skill
  | [] => []
  | t :: rest =>
    if ((jsSplit t "\n").headD "") ≠ "" then
      { skillName := (jsSplit t "\n").headD "" } :: skillsLoop rest
    else
      skillsLoop rest

/-! ### Profile page records and normalization (src lines 1022-1166) -/

/-- Parsed location record (interface `Location`). -/
structure Location where
  city : Option String
  province : Option String
  country : Option String
deriving DecidableEq, Repr

/-- Interface `RawProfile` as the profile evaluate returns it (src lines 1036-1044):
every selector falls back to `""`, so all fields are strings. -/
structure RawProfile where
  fullName : String
  pronouns : String
  title : String
  location : String
  about : String
  photo : String
  url : String
deriving DecidableEq, Repr

/-- Normalized `Profile` (src lines 1122-1130). -/
structure Profile where
  fullName : Option String
  pronouns : Option String
  title : Option String
  location : Option Location
  about : Option String
  photo : String
  url : String
deriving DecidableEq, Repr

/-- Interface `RawEducation` (src lines 1057-1077). -/
structure RawEducation where
  schoolName : Option String
  degreeName : String
  startDate : Option String
  endDate : Option String
deriving DecidableEq, Repr

/-- Normalized `Education` (src lines 1134-1146). -/
structure Education where
  schoolName : Option String
  degreeName : Option String
  startDate : Option String
  endDate : Option String
  durationInDays : Option Int
deriving DecidableEq, Repr

/-- Interface `RawLicense` (src lines 1079-1090). -/
structure RawLicense where
  licenseName : Option String
  licenseBody : String
deriving DecidableEq, Repr

/-- Normalized `License` (src lines 1149-1155). -/
structure License where
  licenseName : Option String
  licenseBody : Option String
deriving DecidableEq, Repr

/-- Interface `RawLanguage` (src lines 1092-1100). -/
structure RawLanguage where
  languageName : Option String
  languageLevel : Option String
deriving DecidableEq, Repr

/-- Normalized `Language` (src lines 1159-1165). -/
structure Language where
  languageName : Option String
  languageLevel : Option String
deriving DecidableEq, Repr

/-- What the big profile-page `page.evaluate` hands back (src lines
1103-1108). -/
structure ProfilePageData where
  raw_profile : RawProfile
  raw_education : List RawEducation
  raw_license : List RawLicense
  raw_language : List RawLanguage
deriving DecidableEq, Repr

/-- The text-normalization utilities imported from `src/utils`
(`getCleanText`, `getLocationFromText`, `formatDate`, `getDurationInDays`).
That module is not part of `src/`, so `run` is parameterized over these
functions; spec §4.4 fixes their contracts but no claim depends on their
semantics. -/
structure Utils where
  getCleanText : Option String → Option String
  getLocationFromText : String → Location
  formatDate : Option String → Option String
  getDurationInDays : Option String → Option String → Option Int

/-- The `userProfile` construction (src lines 1122-1130): spread of the raw
record with cleaned text fields; an empty raw location string is falsy, so
it maps to `null` instead of being parsed. -/
def normalizeProfile (u : Utils) (raw : RawProfile) : Profile :=
  { fullName := u.getCleanText (some raw.fullName)
    pronouns := u.getCleanText (some raw.pronouns)
    title := u.getCleanText (some raw.title)
    location := if raw.location = "" then none else some (u.getLocationFromText raw.location)
    about := u.getCleanText (some raw.about)
    photo := raw.photo
    url := raw.url }

/-- The `education` mapping (src lines 1134-1146). -/
def normalizeEducation (u : Utils) (raw : RawEducation) : Education :=
  { schoolName := u.getCleanText raw.schoolName
    degreeName := u.getCleanText (some raw.degreeName)
    startDate := u.formatDate raw.startDate
    endDate := u.formatDate raw.endDate
    durationInDays := u.getDurationInDays (u.formatDate raw.startDate) (u.formatDate raw.endDate) }

/-- The `license` mapping (src lines 1149-1155). -/
def normalizeLicense (u : Utils) (raw : RawLicense) : License :=
  { licenseName := u.getCleanText raw.licenseName
    licenseBody := u.getCleanText (some raw.licenseBody) }

/-- The `language` mapping (src lines 1159-1165). -/
def normalizeLanguage (u : Utils) (raw : RawLanguage) : Language :=
  { languageName := u.getCleanText raw.languageName
    languageLevel := u.getCleanText raw.languageLevel }

/-! ### The aggregated `run` (src lines 982-1224) -/

/-- Interface `ScraperHistoryMemory`: the caller-supplied watermark. -/
structure ScraperHistoryMemory where
  lastPostID : Nat
  lastCommentID : Nat
deriving DecidableEq, Repr

/-- Models `options?.lastPostID || 0` (src line 985). -/
def lastPostIDOf (options : Option ScraperHistoryMemory) : Nat :=
  match options with
  | none => 0
  | some m => m.lastPostID

/-- Models `options?.lastCommentID || 0` (src line 986). -/
def lastCommentIDOf (options : Option ScraperHistoryMemory) : Nat :=
  match options with
  | none => 0
  | some m => m.lastCommentID

/-- The outcome each browser interaction hands to the pipeline: for every
section, either the plain data the rendered page yields (innerTexts /
attribute values), or the failure the navigation or evaluation surfaced.
In-page post-processing that is the repository's own code (the parse loops,
the filters) is *not* part of the outcome — it is applied by the models
below. -/
structure SectionOutcomes where
  profilePage : Except JsError ProfilePageData
  experiences : Except JsError (List String)
  skills : Except JsError (List String)
  volunteerings : Except JsError (List String)
  honors : Except JsError (List String)
  posts : Except JsError (List PostData)
  commentsPage : Except JsError (String × List RawComment)

/-- Method `getExperiences` (src lines 744-809): run the parse loop over the list
elements, then spread the resulting array into an object
(`{...rawExperiences}`, src lines 796-798). -/
def getExperiences (o : Except JsError (List String)) :
    Except JsError (List (String × Experience)) := do
  let items ← o
  let l ← itemLoop expItem items
  pure (jsSpreadToObj l)

/-- Method `getSkills` (src lines 811-857): returns the parsed array itself. -/
def getSkills (o : Except JsError (List String)) : Except JsError (List Skill) := do
  let items ← o
  pure (skillsLoop items)

/-- Method `getVolunteerings` (src lines 860-919): returns the parsed array. -/
def getVolunteerings (o : Except JsError (List String)) :
    Except JsError (List Volunteering) := do
  let items ← o
  itemLoop volItem items

/-- Method `getHonors` (src lines 922-978): returns the parsed array. -/
def getHonors (o : Except JsError (List String)) : Except JsError (List Honor) := do
  let items ← o
  itemLoop honItem items

/-- Method `getPosts` (src lines 539-662): evaluate yields the raw post array, the
incremental filter drops ids not above the watermark, and the result is the
array spread into an object (src lines 642-648). -/
def getPosts (o : Except JsError (List PostData)) (lastPostID : Nat) :
    Except JsError (List (String × PostData)) := do
  let raw ← o
  pure (jsSpreadToObj (postsFilter raw lastPostID))

/-- Method `getComments` (src lines 664-742): evaluate runs the dedup loop over the
DOM comments (owner from `document.title`), the incremental filter is
applied, and the array is spread into an object (src lines 724-730). -/
def getComments (o : Except JsError (String × List RawComment)) (lastCommentID : Nat) :
    Except JsError (List (String × CommentData)) := do
  let (title, raws) ← o
  let cs ← ownerComments title raws
  pure (jsSpreadToObj (commentsFilter cs lastCommentID))

/-- The object literal `run` returns (src lines 1208-1216). -/
structure RunResult where
  userProfile : Profile
  experiences : List (String × Experience)
  education : List Education
  skills : List Skill
  volunteerings : List Volunteering
  posts : List (String × PostData)
  comments : List (String × CommentData)
deriving DecidableEq, Repr

/-- The keys of the object literal `run` returns (src lines 1208-1216),
transcribed verbatim: a JavaScript object is a key-value map, and these are
the sections actually present in the aggregated result. -/
def runResultFields : List String :=
  ["userProfile", "experiences", "education", "skills", "volunteerings", "posts", "comments"]

/-- Method `run(profileUrl, options)` (src lines 982-1224).  `browserSet` models
`this.browser` being non-null.  The three validations throw before the
`try`, in source order; then the sections are awaited sequentially, any
failure propagating out through the `catch` (whose `this.close()` is the
no-op `close` above and cannot mask the error).  On success the source
additionally calls `this.close(page)` (a no-op) or `page.close()` before
returning the aggregation; the license, language and honors values are
computed but not part of the returned object literal. -/
def run (u : Utils) (browserSet : Bool) (profileUrl : String)
    (options : Option ScraperHistoryMemory) (o : SectionOutcomes) :
    Except JsError RunResult :=
  let lastPostID := lastPostIDOf options
  let lastCommentID := lastCommentIDOf options
  if !browserSet then .error .noBrowser
  else if profileUrl = "" then .error .noProfileUrl
  else if !(jsIncludes profileUrl "linkedin.com/") then .error .invalidUrl
  else do
    let pp ← o.profilePage
    let userProfile := normalizeProfile u pp.raw_profile
    let education := pp.raw_education.map (normalizeEducation u)
    let _license := pp.raw_license.map (normalizeLicense u)
    let _language := pp.raw_language.map (normalizeLanguage u)
    let experiences ← getExperiences o.experiences
    let skills ← getSkills o.skills
    let volunteerings ← getVolunteerings o.volunteerings
    let _honors ← getHonors o.honors
    let posts ← getPosts o.posts lastPostID
    let comments ← getComments o.commentsPage lastCommentID
    pure
      { userProfile := userProfile
        experiences := experiences
        education := education
        skills := skills
        volunteerings := volunteerings
        posts := posts
        comments := comments }

/-- Modelled from the spec: "the target URL belongs to the expected site
(linkedin.com)" (§4.1, §7 `InvalidURLError`).  Membership of a URL in a
site is a property of its hostname: the part after any scheme separator and
before the first slash, equal to the site's domain or one of its
subdomains.  (The source has no such function for `run`; it tests substring
containment instead, which this definition is compared against.) -/
def belongsToLinkedInSite (url : String) : Bool :=
  let afterScheme := ((jsSplit url "://").get? 1).getD url
  let host := (jsSplit afterScheme "/").headD ""
  host == "linkedin.com" || listEndsWith host.data ".linkedin.com".data

/-! ### Helper lemmas -/

theorem float64OfNat_pos {n : Nat} (h : 0 < n) : 0 < float64OfNat n := by
  unfold float64OfNat
  split
  · exact h
  · rename_i hgt
    have hle : 2 ^ 53 < n := by omega
    have h54 : 54 ≤ Nat.size n := by
      have : 53 < Nat.size n := Nat.lt_size.mpr (by omega)
      omega
    have he : 2 ^ (bitLen n - 53) ≤ n := by
      rw [bitLen_eq_size]
      calc 2 ^ (Nat.size n - 53) ≤ 2 ^ (Nat.size n - 1) :=
            Nat.pow_le_pow_right (by norm_num) (by omega)
        _ ≤ n := Nat.lt_size.mp (by omega)
    have hq : 1 ≤ n / 2 ^ (bitLen n - 53) :=
      (Nat.one_le_div_iff (Nat.pos_pow_of_pos _ (by norm_num))).mpr he
    have hpow : 0 < 2 ^ (bitLen n - 53) := Nat.pos_pow_of_pos _ (by norm_num)
    dsimp only
    split
    · exact Nat.mul_pos (by omega) hpow
    · exact Nat.mul_pos hq hpow

theorem itemLoop_skip {α : Type} (f : String → Except JsError (Option α)) {m : String}
    (hm : f m = .ok none) (pre post : List String) :
    itemLoop f (pre ++ m :: post) = itemLoop f (pre ++ post) := by
  induction pre with
  | nil => simp [itemLoop, hm]
  | cons a t ih => simp only [List.cons_append, itemLoop, List.append_eq, ih]

theorem expItem_of_marker {m : String} (h : isEmptyStateItem m = true) :
    expItem m = .ok none := by
  unfold isEmptyStateItem at h
  unfold expItem
  exact if_pos h

theorem volItem_of_marker {m : String} (h : isEmptyStateItem m = true) :
    volItem m = .ok none := by
  unfold isEmptyStateItem at h
  unfold volItem
  exact if_pos h

theorem honItem_of_marker {m : String} (h : isEmptyStateItem m = true) :
    honItem m = .ok none := by
  unfold isEmptyStateItem at h
  unfold honItem
  exact if_pos h

/-! ### Claims about the timestamp codec -/

/-- C2: for every valid numeric identifier `x` — arbitrary-precision, in
particular also above 2^53 — `extractUnixTimestamp x` is the integer value
of the leading 41 bits of `x`'s binary representation.  "Leading 41 bits of
the binary representation" is, arithmetically, the right shift of `x` by
`bitlength(x) - 41` (which for identifiers shorter than 41 bits shifts by
zero, i.e. keeps the whole representation).  The second conjunct shows the
decoded value fits 41 bits, so the `parseInt` double in the source is exact
and the whole decode is lossless integer arithmetic. -/
theorem c2_decode_takes_leading_41_bits (x : Nat) :
    extractUnixTimestamp x = x / 2 ^ (Nat.size x - 41) ∧
      extractUnixTimestamp x < 2 ^ 41 :=
  ⟨extractUnixTimestamp_eq_shift x, extractUnixTimestamp_lt x⟩

/-- C9: an identifier with fewer than 41 bits (value below 2^40) decodes to
itself: the slice takes the whole (shorter) binary string, no padding and no
error. -/
theorem c9_small_ids_decode_to_themselves (x : Nat) (h : x < 2 ^ 40) :
    extractUnixTimestamp x = x := by
  have hs : Nat.size x ≤ 40 := Nat.size_le.mpr (by
    calc x < 2 ^ 40 := h
      _ ≤ 2 ^ 40 := le_rfl)
  rw [extractUnixTimestamp_eq_shift x, Nat.sub_eq_zero_of_le (by omega), pow_zero,
    Nat.div_one]

/-- Witness for C9 at the concrete identifier 999999999. -/
theorem c9_small_ids_decode_to_themselves_witness :
    999999999 < 2 ^ 40 ∧ extractUnixTimestamp 999999999 = 999999999 :=
  ⟨by decide, c9_small_ids_decode_to_themselves 999999999 (by decide)⟩

/-! ### Claims about the incremental-sync filters -/

/-- C1 (code bug): the filters of `getPosts`/`getComments` do *not* compare
identifiers with arbitrary precision.  `post.postId > lastPostID` coerces
the string id to a double, so at the concrete input below — one post with
id 9007199254740993 = 2^53 + 1 and watermark 9007199254740992 = 2^53 — the
id is rounded down to 2^53, the strict comparison fails, and the genuinely
newer post is dropped, although its exact identifier value (third conjunct)
is strictly greater than the watermark. -/
theorem c1_filter_truncates_large_ids :
    postsFilter [⟨some "9007199254740993", none, none, 0, none, none, ""⟩]
        9007199254740992 = [] ∧
      jsToNumber "9007199254740993" = some 9007199254740992 ∧
      natOfDigits "9007199254740993".data = 9007199254740992 + 1 := by
  refine ⟨by decide, by decide, by decide⟩

/-- C6 (counterexample): with a zero watermark an item is still suppressed
when its identifier could not be extracted: a post whose `data-urn` was
absent has `postId = null`, `ToNumber(null) = 0`, and `0 > 0` is false, so
the filter drops it — the result is not the full set. -/
theorem c6_zero_watermark_counterexample :
    postsFilter [⟨none, none, none, 0, none, none, ""⟩] 0 = [] ∧
      ([(⟨none, none, none, 0, none, none, ""⟩ : PostData)] ≠ []) ∧
      commentPasses (.num 0) 0 = false := by
  refine ⟨by decide, by decide, by decide⟩

/-! ### Claims about the list extractors -/

/-- C8: an element whose primary label (the first of the even-indexed lines
of its text) contains the well-known empty-state marker is excluded from the
result of the experience, volunteering and honors extractors: the loop over
any surrounding elements behaves exactly as if the marker element were not
present. -/
theorem c8_empty_state_marker_excluded (pre post : List String) (m : String)
    (h : isEmptyStateItem m = true) :
    itemLoop expItem (pre ++ m :: post) = itemLoop expItem (pre ++ post) ∧
      itemLoop volItem (pre ++ m :: post) = itemLoop volItem (pre ++ post) ∧
      itemLoop honItem (pre ++ m :: post) = itemLoop honItem (pre ++ post) :=
  ⟨itemLoop_skip expItem (expItem_of_marker h) pre post,
    itemLoop_skip volItem (volItem_of_marker h) pre post,
    itemLoop_skip honItem (honItem_of_marker h) pre post⟩

/-- Witness for C8: a concrete marker element between two real elements. -/
theorem c8_empty_state_marker_excluded_witness :
    isEmptyStateItem "Nothing to see here\nicon" = true ∧
      itemLoop expItem
          (["Dev\nlogo\nAcme\nlogo\nJan 2020 - Dec 2020 · 1 yr\nlogo"] ++
            "Nothing to see here\nicon" :: []) =
        itemLoop expItem
          (["Dev\nlogo\nAcme\nlogo\nJan 2020 - Dec 2020 · 1 yr\nlogo"] ++ []) ∧
      itemLoop volItem ([] ++ "Nothing to see here\nicon" :: []) =
        itemLoop volItem ([] ++ []) ∧
      itemLoop honItem ([] ++ "Nothing to see here\nicon" :: []) =
        itemLoop honItem ([] ++ []) :=
  ⟨by decide,
    (c8_empty_state_marker_excluded
      ["Dev\nlogo\nAcme\nlogo\nJan 2020 - Dec 2020 · 1 yr\nlogo"] [] _ (by decide)).1,
    (c8_empty_state_marker_excluded [] [] _ (by decide)).2.1,
    (c8_empty_state_marker_excluded [] [] _ (by decide)).2.2⟩

/-! ### Claim about `close` -/

/-- C4 (code bug): `close` releases nothing on any path.  Its body resolves
an empty promise and returns, so at a state with an open page, an open
browser and a live process, `close(page)` leaves all three untouched — while
the cleanup the spec describes (and the dead code below the early return
implements) would release all three. -/
theorem c4_close_releases_nothing :
    close true ⟨true, true, true⟩ = BrowserState.mk true true true ∧
      closeCleanupBody true ⟨true, true, true⟩ = BrowserState.mk false false false ∧
      close true ⟨true, true, true⟩ ≠ closeCleanupBody true ⟨true, true, true⟩ := by
  refine ⟨rfl, rfl, by decide⟩

/-! ### Comment deduplication (C10) -/

theorem exc_bind_ok {α β : Type} (a : α) (f : α → Except JsError β) :
    (Except.ok a >>= f) = f a := rfl

theorem exc_bind_err {α β : Type} (e : JsError) (f : α → Except JsError β) :
    ((Except.error e : Except JsError α) >>= f) = Except.error e := rfl

theorem exc_pure {α : Type} (a : α) : (pure a : Except JsError α) = Except.ok a := rfl

theorem buildComment_text {c : RawComment} {d : CommentData}
    (h : buildComment c = .ok d) : d.commentText = c.text := by
  unfold buildComment at h
  cases h1 : commentIdOf c.dataId <;> rw [h1] at h <;>
    simp only [exc_bind_ok, exc_bind_err] at h
  · cases h
  · rename_i cid
    cases h2 : commentPostIdOf c.dataId <;> rw [h2] at h <;>
      simp only [exc_bind_ok, exc_bind_err] at h
    · cases h
    · rename_i pid
      cases h3 : jsBigInt cid <;> rw [h3] at h <;>
        simp only [exc_bind_ok, exc_bind_err, exc_pure] at h
      · cases h
      · cases h
        rfl

theorem commentsGo_dup (owner : Option String) (c₂ : RawComment)
    (h₂ : authorIs c₂.author owner = true) :
    ∀ (mid post : List RawComment) (acc : List CommentData),
      c₂.text ∈ (acc.map fun x => x.commentText) →
      commentsGo owner (mid ++ c₂ :: post) acc = commentsGo owner (mid ++ post) acc := by
  intro mid
  induction mid with
  | nil =>
    intro post acc hmem
    simp only [List.nil_append]
    have hc : (acc.map fun x => x.commentText).contains c₂.text = true :=
      List.elem_eq_true_of_mem hmem
    simp only [commentsGo, if_pos h₂, if_pos hc]
  | cons a mid ih =>
    intro post acc hmem
    simp only [List.cons_append, commentsGo]
    by_cases ha : authorIs a.author owner = true
    · simp only [if_pos ha]
      by_cases hc : (acc.map fun x => x.commentText).contains a.text = true
      · simp only [if_pos hc]
        exact ih post acc hmem
      · simp only [if_neg hc]
        cases hbc : buildComment a
        · rfl
        · rename_i d
          refine ih post (acc ++ [d]) ?_
          rw [List.map_append]
          exact List.mem_append.mpr (Or.inl hmem)
    · simp only [if_neg ha]
      exact ih post acc hmem

theorem commentsGo_dedup (owner : Option String) (c₁ c₂ : RawComment)
    (h₁ : authorIs c₁.author owner = true) (h₂ : authorIs c₂.author owner = true)
    (ht : c₁.text = c₂.text) :
    ∀ (pre mid post : List RawComment) (acc : List CommentData),
      commentsGo owner (pre ++ c₁ :: mid ++ c₂ :: post) acc =
        commentsGo owner (pre ++ c₁ :: mid ++ post) acc := by
  intro pre
  induction pre with
  | nil =>
    intro mid post acc
    simp only [List.nil_append, commentsGo, if_pos h₁]
    by_cases hc : (acc.map fun x => x.commentText).contains c₁.text = true
    · simp only [if_pos hc]
      have hmem : c₂.text ∈ (acc.map fun x => x.commentText) := by
        rw [← ht]
        simpa using hc
      exact commentsGo_dup owner c₂ h₂ mid post acc hmem
    · simp only [if_neg hc]
      cases hbc : buildComment c₁
      · rfl
      · rename_i d
        refine commentsGo_dup owner c₂ h₂ mid post (acc ++ [d]) ?_
        rw [List.map_append, ← ht, ← buildComment_text hbc]
        simp
  | cons a pre ih =>
    intro mid post acc
    simp only [List.cons_append, commentsGo]
    by_cases ha : authorIs a.author owner = true
    · simp only [if_pos ha]
      by_cases hc : (acc.map fun x => x.commentText).contains a.text = true
      · simp only [if_pos hc]
        exact ih mid post acc
      · simp only [if_neg hc]
        cases hbc : buildComment a
        · rfl
        · exact ih mid post _
    · simp only [if_neg ha]
      exact ih mid post acc

/-- C10: the comment extractor deduplicates by text.  For any two comments
by the profile owner with identical text, wherever they sit in document
order and whatever their `data-id` attributes (hence identifiers and
timestamps) are, the extractor's result is the same as if the later one
were not present: only the first contributes a record. -/
theorem c10_comment_dedup_by_text (title : String) (pre mid post : List RawComment)
    (c₁ c₂ : RawComment)
    (h₁ : authorIs c₁.author ((jsSplit title " | ").get? 1) = true)
    (h₂ : authorIs c₂.author ((jsSplit title " | ").get? 1) = true)
    (ht : c₁.text = c₂.text) :
    ownerComments title (pre ++ c₁ :: mid ++ c₂ :: post) =
      ownerComments title (pre ++ c₁ :: mid ++ post) := by
  unfold ownerComments
  exact commentsGo_dedup _ c₁ c₂ h₁ h₂ ht pre mid post []

/-- Witness for C10: two owner comments with the same text but different
identifiers; the one with id 999 is dropped. -/
theorem c10_comment_dedup_by_text_witness :
    authorIs "Alice" ((jsSplit "LinkedIn | Alice" " | ").get? 1) = true ∧
      ownerComments "LinkedIn | Alice"
          ([] ++ ⟨"Alice", "hi", some "urn:li:comment:(activity:123,456)"⟩ ::
            [] ++ ⟨"Alice", "hi", some "urn:li:comment:(activity:123,999)"⟩ :: []) =
        ownerComments "LinkedIn | Alice"
          ([] ++ ⟨"Alice", "hi", some "urn:li:comment:(activity:123,456)"⟩ :: [] ++ []) :=
  ⟨by decide,
    c10_comment_dedup_by_text "LinkedIn | Alice" [] [] []
      ⟨"Alice", "hi", some "urn:li:comment:(activity:123,456)"⟩
      ⟨"Alice", "hi", some "urn:li:comment:(activity:123,999)"⟩
      (by decide) (by decide) rfl⟩

/-! ### C6: zero / absent watermark, amended -/

/-- The string carried by an id, when it is a string. -/
def JsId.strVal : JsId → Option String
  | .num _ => none
  | .str s => some s

theorem filter_of_all {α : Type} (p : α → Bool) (l : List α)
    (h : ∀ a ∈ l, p a = true) : l.filter p = l := by
  induction l with
  | nil => rfl
  | cons a t ih =>
    rw [List.filter_cons, if_pos (h a (List.mem_cons_self a t)),
      ih fun b hb => h b (List.mem_cons_of_mem a hb)]

theorem postPasses_zero {pid : Option String} (h1 : pid.isSome = true)
    (h2 : (pid.getD "").data.all (·.isDigit) = true)
    (h3 : 0 < natOfDigits (pid.getD "").data) : postPasses pid 0 = true := by
  match pid with
  | none => cases h1
  | some s =>
    simp only [Option.getD_some] at h2 h3
    unfold postPasses jsToNumber
    have hne : s.data.isEmpty = false := by
      cases hd : s.data with
      | nil => rw [hd] at h3; simp [natOfDigits] at h3
      | cons a t => simp [hd]
    simp only [hne, Bool.false_eq_true, if_false, h2, if_pos, if_true,
      decide_eq_true_eq]
    exact float64OfNat_pos h3

theorem commentPasses_zero {cid : JsId} (h1 : cid.strVal.isSome = true)
    (h2 : (cid.strVal.getD "").data.all (·.isDigit) = true)
    (h3 : 0 < natOfDigits (cid.strVal.getD "").data) :
    commentPasses cid 0 = true := by
  match cid with
  | .num n => cases h1
  | .str s =>
    simp only [JsId.strVal, Option.getD_some] at h2 h3
    unfold commentPasses jsIdToNumber jsToNumber
    have hne : s.data.isEmpty = false := by
      cases hd : s.data with
      | nil => rw [hd] at h3; simp [natOfDigits] at h3
      | cons a t => simp [hd]
    simp only [hne, Bool.false_eq_true, if_false, h2, if_pos, if_true,
      decide_eq_true_eq]
    exact float64OfNat_pos h3

/-- C6 (amended): with a zero watermark the filters keep every item whose
identifier was successfully extracted as a digit string of positive integer
value (which every real feed identifier is); and an absent watermark option
defaults to zero, as does `run` for absent `lastPostID`/`lastCommentID`.
(Per the counterexample, items whose identifier is `null`, the `0`
fallback, or non-numeric are dropped even at watermark zero, so "the full
set, no item suppressed" holds only for items with extracted ids.) -/
theorem c6_zero_watermark_keeps_extracted_ids :
    (∀ l : List PostData,
      (∀ p ∈ l, p.postId.isSome = true ∧
        (p.postId.getD "").data.all (·.isDigit) = true ∧
        0 < natOfDigits (p.postId.getD "").data) →
      postsFilter l 0 = l) ∧
    (∀ l : List CommentData,
      (∀ c ∈ l, c.commentId.strVal.isSome = true ∧
        (c.commentId.strVal.getD "").data.all (·.isDigit) = true ∧
        0 < natOfDigits (c.commentId.strVal.getD "").data) →
      commentsFilter l 0 = l) ∧
    lastPostIDOf none = 0 ∧ lastCommentIDOf none = 0 := by
  refine ⟨fun l h => ?_, fun l h => ?_, rfl, rfl⟩
  · exact filter_of_all _ l fun p hp =>
      postPasses_zero (h p hp).1 (h p hp).2.1 (h p hp).2.2
  · exact filter_of_all _ l fun c hc =>
      commentPasses_zero (h c hc).1 (h c hc).2.1 (h c hc).2.2

/-- Witness for C6 (amended) on concrete one-element lists. -/
theorem c6_zero_watermark_keeps_extracted_ids_witness :
    ((⟨some "7193453098040102912", none, none, 0, none, none, ""⟩ :
        PostData).postId.isSome = true) ∧
      postsFilter [⟨some "7193453098040102912", none, none, 0, none, none, ""⟩] 0 =
        [⟨some "7193453098040102912", none, none, 0, none, none, ""⟩] ∧
      commentsFilter [⟨.str "456", .str "123", "hi", 456, ""⟩] 0 =
        [⟨.str "456", .str "123", "hi", 456, ""⟩] :=
  ⟨by decide,
    c6_zero_watermark_keeps_extracted_ids.1
      [⟨some "7193453098040102912", none, none, 0, none, none, ""⟩] (by decide),
    c6_zero_watermark_keeps_extracted_ids.2.1
      [⟨.str "456", .str "123", "hi", 456, ""⟩] (by decide)⟩

/-! ### Inversion of a successful `run` -/

/-- A successful `run` forces every validation and every section to have
succeeded, and determines the returned aggregation. -/
theorem run_ok_inv {u : Utils} {url : String} {opts : Option ScraperHistoryMemory}
    {o : SectionOutcomes} {r : RunResult} (h : run u true url opts o = .ok r) :
    ∃ pp itemsE lE itemsS itemsV lV itemsH lH rawPosts title raws cs,
      o.profilePage = .ok pp ∧
      o.experiences = .ok itemsE ∧ itemLoop expItem itemsE = .ok lE ∧
      o.skills = .ok itemsS ∧
      o.volunteerings = .ok itemsV ∧ itemLoop volItem itemsV = .ok lV ∧
      o.honors = .ok itemsH ∧ itemLoop honItem itemsH = .ok lH ∧
      o.posts = .ok rawPosts ∧
      o.commentsPage = .ok (title, raws) ∧ ownerComments title raws = .ok cs ∧
      r = { userProfile := normalizeProfile u pp.raw_profile
            experiences := jsSpreadToObj lE
            education := pp.raw_education.map (normalizeEducation u)
            skills := skillsLoop itemsS
            volunteerings := lV
            posts := jsSpreadToObj (postsFilter rawPosts (lastPostIDOf opts))
            comments := jsSpreadToObj (commentsFilter cs (lastCommentIDOf opts)) } := by
  unfold run at h
  split at h
  · cases h
  · split at h
    · cases h
    · split at h
      · cases h
      · cases hpp : o.profilePage with
        | error e => rw [hpp] at h; simp only [exc_bind_err] at h; cases h
        | ok pp =>
        rw [hpp] at h
        simp only [exc_bind_ok, getExperiences, getSkills, getVolunteerings, getHonors,
          getPosts, getComments] at h
        cases hex : o.experiences with
        | error e => rw [hex] at h; simp only [exc_bind_err] at h; cases h
        | ok itemsE =>
        rw [hex] at h
        simp only [exc_bind_ok] at h
        cases hlE : itemLoop expItem itemsE with
        | error e => rw [hlE] at h; simp only [exc_bind_err] at h; cases h
        | ok lE =>
        rw [hlE] at h
        simp only [exc_bind_ok, exc_pure] at h
        cases hsk : o.skills with
        | error e => rw [hsk] at h; simp only [exc_bind_err] at h; cases h
        | ok itemsS =>
        rw [hsk] at h
        simp only [exc_bind_ok, exc_pure] at h
        cases hvo : o.volunteerings with
        | error e => rw [hvo] at h; simp only [exc_bind_err] at h; cases h
        | ok itemsV =>
        rw [hvo] at h
        simp only [exc_bind_ok] at h
        cases hlV : itemLoop volItem itemsV with
        | error e => rw [hlV] at h; simp only [exc_bind_err] at h; cases h
        | ok lV =>
        rw [hlV] at h
        simp only [exc_bind_ok] at h
        cases hho : o.honors with
        | error e => rw [hho] at h; simp only [exc_bind_err] at h; cases h
        | ok itemsH =>
        rw [hho] at h
        simp only [exc_bind_ok] at h
        cases hlH : itemLoop honItem itemsH with
        | error e => rw [hlH] at h; simp only [exc_bind_err] at h; cases h
        | ok lH =>
        rw [hlH] at h
        simp only [exc_bind_ok] at h
        cases hpo : o.posts with
        | error e => rw [hpo] at h; simp only [exc_bind_err] at h; cases h
        | ok rawPosts =>
        rw [hpo] at h
        simp only [exc_bind_ok, exc_pure] at h
        cases hcp : o.commentsPage with
        | error e => rw [hcp] at h; simp only [exc_bind_err] at h; cases h
        | ok tr =>
        obtain ⟨title, raws⟩ := tr
        rw [hcp] at h
        simp only [exc_bind_ok] at h
        cases hcs : ownerComments title raws with
        | error e => rw [hcs] at h; simp only [exc_bind_err] at h; cases h
        | ok cs =>
        rw [hcs] at h
        simp only [exc_bind_ok, exc_pure] at h
        cases h
        exact ⟨pp, itemsE, lE, itemsS, itemsV, lV, itemsH, lH, rawPosts, title, raws, cs,
          rfl, rfl, hlE, rfl, rfl, hlV, rfl, hlH, rfl, rfl, hcs, rfl⟩

/-! ### C5: no partial aggregation -/

/-- C5: `run` never returns a partial aggregation.  First conjunct: a
returned result forces every section outcome — profile page, experiences,
skills, volunteerings, honors, posts, comments — to have succeeded.  Second
conjunct: a failure of any section means no result object is returned at
all (the error propagates out of `run`). -/
theorem c5_no_partial_aggregation (u : Utils) (url : String)
    (opts : Option ScraperHistoryMemory) (o : SectionOutcomes) :
    (∀ r, run u true url opts o = .ok r →
      o.profilePage.isOk = true ∧ o.experiences.isOk = true ∧ o.skills.isOk = true ∧
      o.volunteerings.isOk = true ∧ o.honors.isOk = true ∧ o.posts.isOk = true ∧
      o.commentsPage.isOk = true) ∧
    (∀ e, (o.profilePage = .error e ∨ o.experiences = .error e ∨ o.skills = .error e ∨
        o.volunteerings = .error e ∨ o.honors = .error e ∨ o.posts = .error e ∨
        o.commentsPage = .error e) →
      ∀ r, run u true url opts o ≠ .ok r) := by
  constructor
  · intro r h
    obtain ⟨pp, iE, lE, iS, iV, lV, iH, lH, rp, t, rs, cs,
      hpp, hex, _, hsk, hvo, _, hho, _, hpo, hcp, _, _⟩ := run_ok_inv h
    simp [hpp, hex, hsk, hvo, hho, hpo, hcp, Except.isOk, Except.toBool]
  · intro e hdisj r h
    obtain ⟨pp, iE, lE, iS, iV, lV, iH, lH, rp, t, rs, cs,
      hpp, hex, _, hsk, hvo, _, hho, _, hpo, hcp, _, _⟩ := run_ok_inv h
    rcases hdisj with hd | hd | hd | hd | hd | hd | hd <;> simp_all

/-! ### Sample fixtures for the closed witnesses -/

/-- A concrete instantiation of the external text utilities. -/
def sampleUtils : Utils :=
  { getCleanText := fun s => s
    getLocationFromText := fun _ => ⟨none, none, none⟩
    formatDate := fun s => s
    getDurationInDays := fun _ _ => none }

/-- A post with a genuine (2024) snowflake-style identifier. -/
def samplePost : PostData :=
  ⟨some "7193453098040102912", none, none, 0, none, none, ""⟩

/-- Section outcomes of a small fully rendered profile. -/
def sampleOutcomes : SectionOutcomes :=
  { profilePage := .ok ⟨⟨"", "", "", "", "", "", ""⟩, [], [], []⟩
    experiences := .ok []
    skills := .ok []
    volunteerings := .ok []
    honors := .ok []
    posts := .ok [samplePost]
    commentsPage := .ok ("LinkedIn | Alice", []) }

/-- The same outcomes with a failing posts section. -/
def sampleFailedOutcomes : SectionOutcomes :=
  { sampleOutcomes with posts := .error (.external 7) }

/-- The aggregation `run` produces from `sampleOutcomes`. -/
def sampleResult : RunResult :=
  { userProfile :=
      { fullName := some "", pronouns := some "", title := some "", location := none
        about := some "", photo := "", url := "" }
    experiences := []
    education := []
    skills := []
    volunteerings := []
    posts := [("0", samplePost)]
    comments := [] }

/-- Witness for C5: with the posts section failing, `run` returns no result. -/
theorem c5_no_partial_aggregation_witness :
    sampleFailedOutcomes.posts = .error (.external 7) ∧
      run sampleUtils true "https://www.linkedin.com/in/a/" none sampleFailedOutcomes ≠
        .ok sampleResult :=
  ⟨rfl,
    (c5_no_partial_aggregation sampleUtils "https://www.linkedin.com/in/a/" none
          sampleFailedOutcomes).2
      (.external 7) (Or.inr (Or.inr (Or.inr (Or.inr (Or.inr (Or.inl rfl)))))) sampleResult⟩

/-! ### C3: shape of the aggregated result -/

/-- C3 (counterexample): the aggregated result does not contain every
section the claim lists — the license, language and honor arrays are
computed during `run` but are not keys of the returned object literal. -/
theorem c3_sections_missing_counterexample :
    ¬("license" ∈ runResultFields ∧ "language" ∈ runResultFields ∧
      "honors" ∈ runResultFields) := by
  decide

/-- C3 (amended): a successful `run` returns an aggregation holding exactly
the sections `userProfile`, `experiences`, `education`, `skills`,
`volunteerings`, `posts`, `comments` (license, language and honor records
are computed but omitted), and its posts and comments sections are the
watermark-filtered extractions — spread into index-keyed objects rather
than true arrays (`{...filteredArray}`). -/
theorem c3_run_aggregation_amended :
    runResultFields =
      ["userProfile", "experiences", "education", "skills", "volunteerings",
        "posts", "comments"] ∧
    (∀ (u : Utils) (url : String) (opts : Option ScraperHistoryMemory)
        (o : SectionOutcomes) (r : RunResult) (rawPosts : List PostData),
      run u true url opts o = .ok r → o.posts = .ok rawPosts →
      r.posts = jsSpreadToObj (postsFilter rawPosts (lastPostIDOf opts))) ∧
    (∀ (u : Utils) (url : String) (opts : Option ScraperHistoryMemory)
        (o : SectionOutcomes) (r : RunResult) (title : String)
        (raws : List RawComment) (cs : List CommentData),
      run u true url opts o = .ok r → o.commentsPage = .ok (title, raws) →
      ownerComments title raws = .ok cs →
      r.comments = jsSpreadToObj (commentsFilter cs (lastCommentIDOf opts))) := by
  refine ⟨rfl, ?_, ?_⟩
  · intro u url opts o r rawPosts h hpo
    obtain ⟨pp, iE, lE, iS, iV, lV, iH, lH, rp, t, rs, cs,
      _, _, _, _, _, _, _, _, hpo2, _, _, hr⟩ := run_ok_inv h
    rw [hpo] at hpo2
    cases hpo2
    rw [hr]
  · intro u url opts o r title raws cs h hcp hcs
    obtain ⟨pp, iE, lE, iS, iV, lV, iH, lH, rp, t, rs, cs2,
      _, _, _, _, _, _, _, _, _, hcp2, hcs2, hr⟩ := run_ok_inv h
    rw [hcp] at hcp2
    cases hcp2
    rw [hcs] at hcs2
    cases hcs2
    rw [hr]

/-- Witness for C3 (amended): the concrete successful run. -/
theorem c3_run_aggregation_amended_witness :
    run sampleUtils true "https://www.linkedin.com/in/a/" none sampleOutcomes =
        .ok sampleResult ∧
      sampleResult.posts = jsSpreadToObj (postsFilter [samplePost] (lastPostIDOf none)) ∧
      sampleResult.comments = jsSpreadToObj (commentsFilter [] (lastCommentIDOf none)) :=
  ⟨by rfl,
    c3_run_aggregation_amended.2.1 sampleUtils "https://www.linkedin.com/in/a/" none
      sampleOutcomes sampleResult [samplePost] (by rfl) rfl,
    c3_run_aggregation_amended.2.2 sampleUtils "https://www.linkedin.com/in/a/" none
      sampleOutcomes sampleResult "LinkedIn | Alice" [] [] (by rfl) rfl rfl⟩

/-! ### C7: URL validation -/

/-- C7 (amended): `run` rejects — before creating any page, navigating, or
touching any section outcome — every URL that does not contain the
substring `linkedin.com/`; the result is then failure, identical for all
section outcomes.  But the check is substring containment, not membership
of the URL's host in the expected site (see the counterexample). -/
theorem c7_url_substring_gate (u : Utils) (url : String)
    (opts : Option ScraperHistoryMemory) (o o' : SectionOutcomes)
    (h : jsIncludes url "linkedin.com/" = false) :
    run u true url opts o = run u true url opts o' ∧
      (run u true url opts o).isOk = false := by
  unfold run
  by_cases he : url = ""
  · simp [he, Except.isOk, Except.toBool]
  · simp [he, h, Except.isOk, Except.toBool]

/-- Witness for C7 (amended) at a concrete foreign URL and two different
outcome bundles. -/
theorem c7_url_substring_gate_witness :
    jsIncludes "https://example.com/profile" "linkedin.com/" = false ∧
      run sampleUtils true "https://example.com/profile" none sampleOutcomes =
        run sampleUtils true "https://example.com/profile" none sampleFailedOutcomes ∧
      (run sampleUtils true "https://example.com/profile" none sampleOutcomes).isOk =
        false :=
  ⟨by decide,
    (c7_url_substring_gate sampleUtils "https://example.com/profile" none sampleOutcomes
        sampleFailedOutcomes (by decide)).1,
    (c7_url_substring_gate sampleUtils "https://example.com/profile" none sampleOutcomes
        sampleFailedOutcomes (by decide)).2⟩

/-- C7 (counterexample): `run` does not only proceed for URLs belonging to
linkedin.com.  The URL `https://evil.com/linkedin.com/x` has host
`evil.com`, yet it passes the substring check and `run` proceeds through
navigation and extraction to a successful result. -/
theorem c7_foreign_url_passes_counterexample :
    belongsToLinkedInSite "https://evil.com/linkedin.com/x" = false ∧
      jsIncludes "https://evil.com/linkedin.com/x" "linkedin.com/" = true ∧
      (run sampleUtils true "https://evil.com/linkedin.com/x" none sampleOutcomes).isOk =
        true := by
  refine ⟨by decide, by decide, by decide⟩

end LinkedInProfileScraper
